import Mathlib

/-!
Shallow embedding of `src/status_matrix.py` (the `StatusMatrix` controller of
the `toratora` repository).  Python floats are modelled as `ℚ` wherever the
code only does field arithmetic and comparisons, and as `ℝ` where the code
calls `math.cos`; Python `int(...)` truncation toward zero is modelled
explicitly; code that may raise is modelled with `Except Unit` inputs at the
points where the source performs an external query.
-/

/-- An RGB colour triple, as the Python code's `Tuple[int, int, int]`. -/
abbrev Color := ℤ × ℤ × ℤ

/-- Python float `%`: `a % b = a - b * floor (a / b)` (sign of the divisor). -/
def pyMod (a b : ℚ) : ℚ := a - b * ⌊a / b⌋

/-- Python `int(x)` on a rational: truncation toward zero. -/
def truncQ (x : ℚ) : ℤ := if 0 ≤ x then ⌊x⌋ else ⌈x⌉

/-- Python `int(x)` on a real: truncation toward zero. -/
noncomputable def truncR (x : ℝ) : ℤ := if 0 ≤ x then ⌊x⌋ else ⌈x⌉

/-- `blink(color, now, period=1.0, duty=0.5)` from `status_matrix.py`:
`phase = (now % period) / period`; the colour if `phase < duty`, else off. -/
def blink (color : Color) (now : ℚ) (period : ℚ) (duty : ℚ) : Color :=
  if pyMod now period / period < duty then color else (0, 0, 0)

/-- The `intensity` local of `pulse`: `0.5 * (1 - cos(2π·phase))` with
`phase = (now % period) / period`. -/
noncomputable def pulse_intensity (now period : ℚ) : ℝ :=
  0.5 * (1 - Real.cos (2 * Real.pi * ((pyMod now period / period : ℚ) : ℝ)))

/-- `pulse(color, now, period=1.0)` from `status_matrix.py`: each channel
scaled by the intensity and truncated to int. -/
noncomputable def pulse (color : Color) (now : ℚ) (period : ℚ) : Color :=
  (truncR (color.1 * pulse_intensity now period),
    truncR (color.2.1 * pulse_intensity now period),
    truncR (color.2.2 * pulse_intensity now period))

/-- A pixel write reaching the sink: coordinates plus colour. -/
abbrev Pix := ℤ × ℤ × Color

/-- Python `range(lo, hi)` over integers. -/
def pyRange (lo hi : ℤ) : List ℤ :=
  (List.range (hi - lo).toNat).map (fun k : ℕ => lo + (k : ℤ))

/-- `StatusMatrix._set_pixel`: on the hd device every write is clipped to the
8×8 window (`x < 8 and y < 8`), otherwise forwarded unconditionally.  The
result is the list of writes that reach the sink. -/
def set_pixel (hd : Bool) (x y : ℤ) (c : Color) : List Pix :=
  if hd then (if x < 8 ∧ y < 8 then [(x, y, c)] else []) else [(x, y, c)]

/-- `StatusMatrix._fill_quad`: paints the 4×4 block at `origin`. -/
def fill_quad (hd : Bool) (origin : ℤ × ℤ) (c : Color) : List Pix :=
  (pyRange origin.1 (origin.1 + 4)).flatMap fun x =>
    (pyRange origin.2 (origin.2 + 4)).flatMap fun y =>
      set_pixel hd x y c

/-- `StatusMatrix._fill_rows`: for `i in range(level)` paints columns
`origin.1..origin.1+3` over rows `origin.2+3-i..origin.2+3`. -/
def fill_rows (hd : Bool) (origin : ℤ × ℤ) (level : ℤ) (c : Color) : List Pix :=
  (pyRange 0 level).flatMap fun i =>
    (pyRange origin.1 (origin.1 + 4)).flatMap fun x =>
      (pyRange (origin.2 + 3 - i) (origin.2 + 4)).flatMap fun y =>
        set_pixel hd x y c

/-- A stored manual override (`self.overrides[q]` entry):
`{"color": color, "mode": mode, "expiry": expiry}`. -/
structure Override where
  color : Color
  mode : String
  expiry : Option ℚ
  deriving DecidableEq

/-- The animation step of `StatusMatrix._apply_override`: `blink` if the mode
is `"blink"`, `pulse` if `"pulse"`, otherwise the colour itself (defaults
`period=1.0`, `duty=0.5` at the call sites). -/
noncomputable def anim_color (mode : String) (c : Color) (now : ℚ) : Color :=
  if mode = "blink" then blink c now 1 (1/2)
  else if mode = "pulse" then pulse c now 1
  else c

/-- `StatusMatrix._apply_override`: `None` when the override is absent or when
`expiry and now > expiry` (Python float truthiness: an expiry equal to `0.0`
is falsy and disables the check); otherwise the animated colour. -/
noncomputable def apply_override (ov : Option Override) (now : ℚ) : Option Color :=
  match ov with
  | none => none
  | some o =>
    match o.expiry with
    | none => some (anim_color o.mode o.color now)
    | some e => if e ≠ 0 ∧ e < now then none else some (anim_color o.mode o.color now)

/-- The configuration values read by the claims' code paths, with the
defaults the source supplies at each `get` site. -/
structure Cfg where
  warnLoad : ℚ := 2
  warnDiskPct : ℚ := 85
  critTempC : ℚ := 80
  critDiskPct : ℚ := 95
  warnColor : Color := (255, 165, 0)
  critColor : Color := (255, 0, 0)
  okColor : Color := (0, 255, 0)
  apIface : String := "wlan0"
  buckets : List ℚ := [64, 256, 1024]
  iface : String := "auto"

/-- The default configuration (`Config()` with the in-code `get` defaults). -/
def defaultCfg : Cfg := {}

/-- The `"pi"` entry of the sampled state dict. -/
structure PiData where
  temp : ℚ
  load : ℚ
  disk : ℚ
  deriving DecidableEq

/-- The `"ap"` entry of the sampled state dict. -/
structure APData where
  active : Bool
  clients : ℕ
  deriving DecidableEq

/-- One published metrics snapshot: the four sub-records written by
`StatusMatrix._poll` under the lock. -/
structure Snapshot where
  pi : PiData
  tor : Bool
  ap : APData
  trafficLevel : ℕ
  deriving DecidableEq

/-- The lock-guarded shared state: latest snapshot plus the overrides map. -/
structure Shared where
  snap : Snapshot
  overrides : String → Option Override

/-- `StatusMatrix.set_override(q, color, mode, persist, duration)` executed at
wall-clock time `now`: stores `{color, mode, expiry = persist ? None : now + duration}`
under the key `q`. -/
def set_override (st : Shared) (q : String) (color : Color) (mode : String)
    (persist : Bool) (duration now : ℚ) : Shared :=
  { st with overrides := fun k =>
      if k = q then some ⟨color, mode, if persist then none else some (now + duration)⟩
      else st.overrides k }

/-- `StatusMatrix.clear_override(q)`: pops the key `q` (no-op when absent). -/
def clear_override (st : Shared) (q : String) : Shared :=
  { st with overrides := fun k => if k = q then none else st.overrides k }

/-- Controller lifecycle state: the `running` flag, the shared state, and the
number of loop threads spawned so far. -/
structure CtrlState where
  running : Bool
  shared : Shared
  threads : ℕ

/-- `StatusMatrix.start()`: returns immediately when already running,
otherwise sets the flag and spawns the sampler and renderer threads. -/
def start (s : CtrlState) : CtrlState :=
  if s.running then s else { s with running := true, threads := s.threads + 2 }

/-- The colour-resolution part of `StatusMatrix._render_pi`: override if
active, else the temperature-ramped base green, overwritten by
`blink(warn)` on a warn breach and then by `pulse(crit)` on a crit breach. -/
noncomputable def render_pi_color (cfg : Cfg) (d : PiData) (ov : Option Override)
    (now : ℚ) : Color :=
  match apply_override ov now with
  | some c => c
  | none =>
    let base : Color := (0, truncQ (255 * min d.temp 80 / 80), 0)
    let afterWarn :=
      if cfg.warnLoad < d.load ∨ cfg.warnDiskPct < d.disk
      then blink cfg.warnColor now 1 (1/2) else base
    if cfg.critTempC < d.temp ∨ cfg.critDiskPct < d.disk
    then pulse cfg.critColor now 1 else afterWarn

/-- `StatusMatrix._render_pi`: fills the `(0,0)` quadrant with the resolved
colour. -/
noncomputable def render_pi (hd : Bool) (cfg : Cfg) (d : PiData)
    (ov : Option Override) (now : ℚ) : List Pix :=
  fill_quad hd (0, 0) (render_pi_color cfg d ov now)

/-- `StatusMatrix._render_traffic`: the `(4,4)` quadrant; with no active
override, draws `level` bottom rows in the ok colour via `_fill_rows`,
otherwise fills the quadrant with the override colour. -/
noncomputable def render_traffic (hd : Bool) (cfg : Cfg) (level : ℤ)
    (ov : Option Override) (now : ℚ) : List Pix :=
  match apply_override ov now with
  | none => fill_rows hd (4, 4) level cfg.okColor
  | some c => fill_quad hd (4, 4) c

/-- The bucket loop of `StatusMatrix._read_traffic_level`:
`for i, b in enumerate(buckets, start=1): if kbps <= b: return i`, then
`len(buckets) + 1`. -/
def bucket_level (buckets : List ℚ) (kbps : ℚ) : ℕ :=
  match buckets with
  | [] => 1
  | b :: rest => if kbps ≤ b then 1 else bucket_level rest kbps + 1

/-- `StatusMatrix._read_cpu_temp`: the thermal-zone file content in
millidegrees divided by 1000, or `0.0` on any exception. -/
def read_cpu_temp (raw : Except Unit ℚ) : ℚ :=
  match raw with
  | .ok milli => milli / 1000
  | .error _ => 0

/-- `StatusMatrix._systemd_active`: whether the stripped `systemctl is-active`
stdout equals `"active"`, or `False` on any exception. -/
def systemd_active (raw : Except Unit String) : Bool :=
  match raw with
  | .ok out => out.trim == "active"
  | .error _ => false

/-- `StatusMatrix._count_ap_clients`: the number of `iw station dump` output
lines whose stripped form starts with `"Station"`, or `0` on any exception. -/
def count_ap_clients (raw : Except Unit (List String)) : ℕ :=
  match raw with
  | .ok lines => (lines.filter (fun l => l.trim.startsWith "Station")).length
  | .error _ => 0

/-- `StatusMatrix._get_iface`: the configured interface unless `"auto"`; else
the token after `"dev"` in the default-route output, falling back to
`"wlan0"` when the route query, the `index` lookup or the indexing fails. -/
def get_iface (cfgIface : String) (route : Except Unit (List String)) : String :=
  if cfgIface ≠ "auto" then cfgIface
  else
    match route with
    | .error _ => "wlan0"
    | .ok parts =>
      match parts.findIdx? (fun t => t == "dev") with
      | none => "wlan0"
      | some i => (parts.get? (i + 1)).getD "wlan0"

/-- `StatusMatrix._read_iface_bytes`: the `(rx, tx)` counters, or `(0, 0)` on
any exception. -/
def read_iface_bytes (raw : Except Unit (ℤ × ℤ)) : ℤ × ℤ :=
  match raw with
  | .ok p => p
  | .error _ => (0, 0)

/-- `StatusMatrix._read_traffic_level`: two counter samples 0.1 s apart,
`kbps = delta * 8 / 1000 / 0.1`, bucketed by `bucket_level`. -/
def read_traffic_level (buckets : List ℚ) (raw1 raw2 : Except Unit (ℤ × ℤ)) : ℕ :=
  let s1 := read_iface_bytes raw1
  let s2 := read_iface_bytes raw2
  let delta : ℤ := (s2.1 - s1.1) + (s2.2 - s1.2)
  bucket_level buckets ((delta : ℚ) * 8 / 1000 / (1 / 10))

/-- The outcomes of the external queries one `_poll` cycle performs.  Each
field is `Except Unit _` at the point where the source can raise: the
temperature read, `os.getloadavg()`, `shutil.disk_usage` (used and total),
`systemctl is-active tor`, each AP service check, the `iw` client dump, the
default-route lookup, and the two byte-counter samples. -/
structure PollInputs where
  tempRaw : Except Unit ℚ
  loadRaw : Except Unit ℚ
  diskRaw : Except Unit (ℚ × ℚ)
  torRaw : Except Unit String
  apServiceRaw : List (Except Unit String)
  clientsRaw : Except Unit (List String)
  routeRaw : Except Unit (List String)
  bytesRaw1 : Except Unit (ℤ × ℤ)
  bytesRaw2 : Except Unit (ℤ × ℤ)

/-- `StatusMatrix._poll`: the guarded sub-queries default on failure, but the
load-average and disk-usage calls are *not* wrapped, so their exceptions
escape the poll body and no snapshot is produced for that cycle. -/
def poll (cfg : Cfg) (inp : PollInputs) : Except Unit Snapshot :=
  match inp.loadRaw, inp.diskRaw with
  | .ok load, .ok du =>
    .ok { pi := ⟨read_cpu_temp inp.tempRaw, load, du.1 / du.2 * 100⟩
        , tor := systemd_active inp.torRaw
        , ap := ⟨inp.apServiceRaw.all systemd_active,
                 if cfg.apIface ≠ "" then count_ap_clients inp.clientsRaw else 0⟩
        , trafficLevel := read_traffic_level cfg.buckets inp.bytesRaw1 inp.bytesRaw2 }
  | .error e, _ => .error e
  | _, .error e => .error e

/-- One iteration of `StatusMatrix._poll_loop`: `_poll` runs inside
`try/except`, so a raising cycle is logged and leaves the state unchanged
while the loop continues; a successful cycle replaces the snapshot under the
lock. -/
def poll_step (cfg : Cfg) (st : Shared) (inp : PollInputs) : Shared :=
  match poll cfg inp with
  | .ok snap => { st with snap := snap }
  | .error _ => st

/-- A concrete snapshot used to instantiate theorems at concrete inputs. -/
def snap0 : Snapshot := ⟨⟨10, 2, 30⟩, true, ⟨true, 1⟩, 2⟩

/-- A concrete shared state with no overrides set. -/
def shared0 : Shared := ⟨snap0, fun _ => none⟩

/-- A concrete controller state that is already running. -/
def ctrl0 : CtrlState := ⟨true, shared0, 2⟩

/-- Poll inputs whose (unguarded) load-average query raises while every other
query succeeds. -/
def pollInpBad : PollInputs :=
  ⟨.ok 40000, .error (), .ok (50, 100), .ok "active", [], .ok [], .ok [],
    .ok (0, 0), .ok (0, 0)⟩

/-- Poll inputs where load and disk succeed but every guarded query raises. -/
def pollInpOk : PollInputs :=
  ⟨.error (), .ok 1, .ok (50, 100), .error (), [], .error (), .error (),
    .error (), .error ()⟩

lemma mem_pyRange {a lo hi : ℤ} : a ∈ pyRange lo hi ↔ lo ≤ a ∧ a < hi := by
  constructor
  · rintro h
    simp only [pyRange, List.mem_map, List.mem_range] at h
    obtain ⟨k, hk, rfl⟩ := h
    omega
  · rintro ⟨h1, h2⟩
    simp only [pyRange, List.mem_map, List.mem_range]
    exact ⟨(a - lo).toNat, by omega, by omega⟩

lemma mem_set_pixel {hd : Bool} {x y : ℤ} {c : Color} {p : Pix} :
    p ∈ set_pixel hd x y c ↔ p = (x, y, c) ∧ (hd = true → x < 8 ∧ y < 8) := by
  unfold set_pixel
  cases hd
  · simp
  · rw [if_pos rfl]
    by_cases h8 : x < 8 ∧ y < 8
    · rw [if_pos h8]
      simp [h8]
    · rw [if_neg h8]
      simp only [List.not_mem_nil, false_iff, not_and]
      intro _ hcl
      exact h8 (hcl (by trivial))

lemma pyMod_eq_fract (now period : ℚ) (hp : period ≠ 0) :
    pyMod now period / period = Int.fract (now / period) := by
  unfold pyMod Int.fract
  field_simp

/-- C7: for every colour, `now`, `period > 0` and `duty`, the blink phase
`(now % period) / period` lies in `[0, 1)`, `blink` returns the input colour
exactly when the phase is strictly below `duty`, returns pure black exactly
from `duty` on, and its output is always one of the two. -/
theorem blink_spec (c : Color) (now period duty : ℚ) (hp : 0 < period) :
    (0 ≤ pyMod now period / period ∧ pyMod now period / period < 1)
    ∧ (pyMod now period / period < duty → blink c now period duty = c)
    ∧ (duty ≤ pyMod now period / period → blink c now period duty = (0, 0, 0))
    ∧ (blink c now period duty = c ∨ blink c now period duty = (0, 0, 0)) := by
  have hfr := pyMod_eq_fract now period (ne_of_gt hp)
  refine ⟨⟨by rw [hfr]; exact Int.fract_nonneg _, by rw [hfr]; exact Int.fract_lt_one _⟩,
    ?_, ?_, ?_⟩
  · intro h
    unfold blink
    rw [if_pos h]
  · intro h
    unfold blink
    rw [if_neg (not_lt.mpr h)]
  · unfold blink
    split
    · exact Or.inl rfl
    · exact Or.inr rfl

/-- Witness for C7 at a concrete input: with `now = 1/4`, `period = 1`,
`duty = 1/2`, the phase is below the duty and the input colour is returned. -/
theorem blink_spec_witness : blink (10, 20, 30) (1/4) 1 (1/2) = (10, 20, 30) := by
  have h := (blink_spec (10, 20, 30) (1/4) 1 (1/2) (by norm_num)).2.1
  apply h
  norm_num [pyMod]

/-- C6: on the hd device path, a `_set_pixel` call with `x ≥ 8` or `y ≥ 8`
forwards nothing to the sink, a call at `(7,7)` stores exactly the one pixel
`(7,7)`, and every pixel that does reach the sink has both coordinates
below 8. -/
theorem set_pixel_clip (x y : ℤ) (c : Color) (h : 8 ≤ x ∨ 8 ≤ y) :
    set_pixel true x y c = []
    ∧ set_pixel true 7 7 c = [(7, 7, c)]
    ∧ ∀ x' y' : ℤ, ∀ p ∈ set_pixel true x' y' c, p.1 < 8 ∧ p.2.1 < 8 := by
  refine ⟨?_, ?_, ?_⟩
  · unfold set_pixel
    rw [if_pos rfl, if_neg (by omega)]
  · unfold set_pixel
    rw [if_pos rfl, if_pos (by omega)]
  · intro x' y' p hp
    rcases mem_set_pixel.mp hp with ⟨rfl, hb⟩
    exact hb rfl

/-- Witness for C6 at concrete inputs: `(10, 10)` is dropped and `(7, 7)` is
stored. -/
theorem set_pixel_clip_witness :
    set_pixel true 10 10 (1, 2, 3) = [] ∧ set_pixel true 7 7 (1, 2, 3) = [(7, 7, (1, 2, 3))] := by
  have h := set_pixel_clip 10 10 (1, 2, 3) (Or.inl (by norm_num))
  exact ⟨h.1, h.2.1⟩

/-- C9: calling `start()` while already running is a no-op: the controller
state — running flag, shared state, overrides — is returned unchanged and no
further loop threads are spawned; in particular a second `start()` changes
nothing after a first. -/
theorem start_idempotent (s : CtrlState) (h : s.running = true) :
    start s = s ∧ (start s).threads = s.threads ∧ start (start s) = start s := by
  have h1 : start s = s := by
    unfold start
    rw [if_pos h]
  exact ⟨h1, by rw [h1], by rw [h1]; exact h1⟩

/-- Witness for C9 at a concrete running controller state. -/
theorem start_idempotent_witness : start ctrl0 = ctrl0 := by
  exact (start_idempotent ctrl0 rfl).1

/-- C10: `set_override q` and `clear_override q` leave the metrics snapshot
and every other quadrant's override entry untouched. -/
theorem override_frame_effect (st : Shared) (q q' : String) (c : Color)
    (mode : String) (persist : Bool) (dur now : ℚ) (h : q' ≠ q) :
    (set_override st q c mode persist dur now).snap = st.snap
    ∧ (set_override st q c mode persist dur now).overrides q' = st.overrides q'
    ∧ (clear_override st q).snap = st.snap
    ∧ (clear_override st q).overrides q' = st.overrides q' := by
  refine ⟨rfl, ?_, rfl, ?_⟩ <;> simp [set_override, clear_override, h]

/-- Witness for C10: setting the `"pi"` override and clearing it leaves the
snapshot and the `"tor"` entry unchanged in a concrete shared state. -/
theorem override_frame_effect_witness :
    (set_override shared0 "pi" (1, 2, 3) "solid" false 5 100).snap = shared0.snap
    ∧ (set_override shared0 "pi" (1, 2, 3) "solid" false 5 100).overrides "tor"
        = shared0.overrides "tor"
    ∧ (clear_override shared0 "pi").snap = shared0.snap
    ∧ (clear_override shared0 "pi").overrides "tor" = shared0.overrides "tor" :=
  override_frame_effect shared0 "pi" "tor" (1, 2, 3) "solid" false 5 100 (by decide)

lemma truncR_intCast (n : ℤ) : truncR (n : ℝ) = n := by
  unfold truncR
  split <;> simp

lemma pulse_intensity_zero (now period : ℚ) (h : pyMod now period = 0) :
    pulse_intensity now period = 0 := by
  unfold pulse_intensity
  rw [h, zero_div]
  push_cast
  rw [mul_zero, Real.cos_zero]
  norm_num

lemma pulse_intensity_half (now period : ℚ) (hp : 0 < period)
    (h : pyMod now period = period / 2) :
    pulse_intensity now period = 1 := by
  unfold pulse_intensity
  rw [h]
  rw [show period / 2 / period = (1 : ℚ) / 2 from by field_simp; ring]
  push_cast
  rw [show (2 : ℝ) * Real.pi * (1 / 2) = Real.pi from by ring]
  rw [Real.cos_pi]
  norm_num

/-- C8: for every colour, non-negative `now` and `period > 0`, `pulse`
scales each channel by `0.5 * (1 - cos(2π·phase))` truncated to integer; at
phase 0 (`now % period = 0`) the intensity is 0 and the result is black, and
at phase 1/2 (`now % period = period/2`) the intensity is 1 and the result is
the original colour. -/
theorem pulse_spec (c : Color) (now period : ℚ) (hp : 0 < period) (hn : 0 ≤ now) :
    (pulse c now period
      = (truncR (c.1 * pulse_intensity now period),
          truncR (c.2.1 * pulse_intensity now period),
          truncR (c.2.2 * pulse_intensity now period)))
    ∧ (pyMod now period = 0 →
        pulse_intensity now period = 0 ∧ pulse c now period = (0, 0, 0))
    ∧ (pyMod now period = period / 2 →
        pulse_intensity now period = 1 ∧ pulse c now period = c) := by
  refine ⟨rfl, ?_, ?_⟩
  · intro h
    have hi := pulse_intensity_zero now period h
    refine ⟨hi, ?_⟩
    unfold pulse
    rw [hi]
    simp only [mul_zero]
    rw [show truncR 0 = 0 from by rw [show (0 : ℝ) = ((0 : ℤ) : ℝ) from by norm_num, truncR_intCast]]
  · intro h
    have hi := pulse_intensity_half now period hp h
    refine ⟨hi, ?_⟩
    unfold pulse
    rw [hi]
    simp only [mul_one, truncR_intCast]

/-- Witness for C8: with `period = 1`, `pulse` of `(10, 20, 30)` is black at
`now = 1` (phase 0) and the original colour at `now = 1/2` (phase 1/2). -/
theorem pulse_spec_witness :
    pulse (10, 20, 30) 1 1 = (0, 0, 0) ∧ pulse (10, 20, 30) (1/2) 1 = (10, 20, 30) := by
  constructor
  · exact ((pulse_spec (10, 20, 30) 1 1 (by norm_num) (by norm_num)).2.1
      (by norm_num [pyMod])).2
  · exact ((pulse_spec (10, 20, 30) (1/2) 1 (by norm_num) (by norm_num)).2.2
      (by norm_num [pyMod])).2

lemma bucket_level_first (kbps : ℚ) :
    ∀ (B : List ℚ) (i : ℕ) (hi : i < B.length), kbps ≤ B.get ⟨i, hi⟩ →
      (∀ (j : ℕ) (hj : j < B.length), j < i → B.get ⟨j, hj⟩ < kbps) →
      bucket_level B kbps = i + 1 := by
  intro B
  induction B with
  | nil => intro i hi; simp at hi
  | cons b rest ih =>
    intro i hi hle hmin
    cases i with
    | zero =>
      simp only [List.get] at hle
      unfold bucket_level
      rw [if_pos hle]
    | succ i' =>
      have hb : b < kbps := by
        have := hmin 0 (by simp) (by omega)
        simpa using this
      unfold bucket_level
      rw [if_neg (not_le.mpr hb)]
      have hrec := ih i' (by simpa using hi)
        (by simpa using hle)
        (by
          intro j hj hji
          have := hmin (j + 1) (by simpa using Nat.succ_lt_succ hj) (by omega)
          simpa using this)
      omega

lemma bucket_level_over (kbps : ℚ) :
    ∀ B : List ℚ, (∀ b ∈ B, b < kbps) → bucket_level B kbps = B.length + 1 := by
  intro B
  induction B with
  | nil => intro _; rfl
  | cons b rest ih =>
    intro h
    unfold bucket_level
    rw [if_neg (not_le.mpr (h b (List.mem_cons_self b rest)))]
    rw [ih (fun x hx => h x (List.mem_cons_of_mem b hx))]
    simp

lemma mem_le_getLast :
    ∀ (B : List ℚ), B.Sorted (· ≤ ·) → ∀ lastB, B.getLast? = some lastB →
      ∀ b ∈ B, b ≤ lastB := by
  intro B
  induction B with
  | nil => intro _ lastB h; simp at h
  | cons b rest ih =>
    intro hs lastB hl x hx
    cases rest with
    | nil =>
      simp at hl hx
      rw [hx, hl]
    | cons c rest' =>
      rw [List.getLast?_cons_cons] at hl
      rcases List.mem_cons.mp hx with rfl | hx'
      · have hmem : lastB ∈ c :: rest' := List.mem_of_mem_getLast? hl
        exact List.rel_of_sorted_cons hs lastB hmem
      · exact ih (List.Sorted.of_cons hs) lastB hl x hx'

/-- C3: for an ascending bucket list, the bucket loop returns the smallest
1-based index whose threshold is `≥ kbps`, returns `len+1` when `kbps`
strictly exceeds the last threshold, and `_read_traffic_level` is exactly
this bucketing applied to `delta * 8 / 1000 / 0.1`. -/
theorem traffic_bucket_spec (B : List ℚ) (kbps : ℚ) (hasc : B.Sorted (· ≤ ·)) :
    (∀ (i : ℕ) (hi : i < B.length), kbps ≤ B.get ⟨i, hi⟩ →
      (∀ (j : ℕ) (hj : j < B.length), j < i → B.get ⟨j, hj⟩ < kbps) →
      bucket_level B kbps = i + 1)
    ∧ (∀ lastB, B.getLast? = some lastB → lastB < kbps →
        bucket_level B kbps = B.length + 1)
    ∧ (∀ raw1 raw2 : Except Unit (ℤ × ℤ),
        read_traffic_level B raw1 raw2 =
          bucket_level B
            (((((read_iface_bytes raw2).1 - (read_iface_bytes raw1).1)
              + ((read_iface_bytes raw2).2 - (read_iface_bytes raw1).2) : ℤ) : ℚ)
              * 8 / 1000 / (1 / 10))) := by
  refine ⟨fun i hi h1 h2 => bucket_level_first kbps B i hi h1 h2, ?_, ?_⟩
  · intro lastB hl hlt
    exact bucket_level_over kbps B (fun b hb =>
      lt_of_le_of_lt (mem_le_getLast B hasc lastB hl b hb) hlt)
  · intro raw1 raw2
    rfl

/-- Witness for C3 with buckets `[64, 256, 1024]`: a throughput of 2560 kb/s
yields level 4, one of 50 kb/s yields level 1, and the byte samples of the
repository's own test (`(0,0)` then `(16000,16000)`) yield level 4. -/
theorem traffic_bucket_spec_witness :
    bucket_level [64, 256, 1024] 2560 = 4 ∧ bucket_level [64, 256, 1024] 50 = 1
    ∧ read_traffic_level [64, 256, 1024] (.ok (0, 0)) (.ok (16000, 16000)) = 4 := by
  have hasc : ([64, 256, 1024] : List ℚ).Sorted (· ≤ ·) := by
    norm_num [List.sorted_cons]
  have h4 : bucket_level [64, 256, 1024] 2560 = 4 := by
    have := (traffic_bucket_spec [64, 256, 1024] 2560 hasc).2.1 1024 rfl (by norm_num)
    simpa using this
  refine ⟨h4, ?_, ?_⟩
  · have := (traffic_bucket_spec [64, 256, 1024] 50 hasc).1 0 (by norm_num)
      (by norm_num [List.get]) (by omega)
    simpa using this
  · have := (traffic_bucket_spec [64, 256, 1024] 2560 hasc).2.2
      (.ok (0, 0)) (.ok (16000, 16000))
    rw [this]
    norm_num [read_iface_bytes]
    exact h4

lemma render_pi_color_none (cfg : Cfg) (d : PiData) (now : ℚ) :
    render_pi_color cfg d none now =
      if cfg.critTempC < d.temp ∨ cfg.critDiskPct < d.disk
      then pulse cfg.critColor now 1
      else if cfg.warnLoad < d.load ∨ cfg.warnDiskPct < d.disk
      then blink cfg.warnColor now 1 (1/2)
      else (0, truncQ (255 * min d.temp 80 / 80), 0) := rfl

/-- C2: with no active override, the pi quadrant colour is the green
temperature ramp `(0, int(255*min(temp,80)/80), 0)`; a warn breach
(`load > warnLoad` or `disk > warnDiskPct`) replaces it with the blinking
warn colour; a crit breach (`temp > critTempC` or `disk > critDiskPct`)
replaces it with the pulsing crit colour, and wins when both fire. -/
theorem render_pi_spec (cfg : Cfg) (d : PiData) (now : ℚ) :
    (¬(cfg.warnLoad < d.load ∨ cfg.warnDiskPct < d.disk) →
      ¬(cfg.critTempC < d.temp ∨ cfg.critDiskPct < d.disk) →
      render_pi_color cfg d none now = (0, truncQ (255 * min d.temp 80 / 80), 0))
    ∧ ((cfg.warnLoad < d.load ∨ cfg.warnDiskPct < d.disk) →
      ¬(cfg.critTempC < d.temp ∨ cfg.critDiskPct < d.disk) →
      render_pi_color cfg d none now = blink cfg.warnColor now 1 (1/2))
    ∧ ((cfg.critTempC < d.temp ∨ cfg.critDiskPct < d.disk) →
      render_pi_color cfg d none now = pulse cfg.critColor now 1) := by
  refine ⟨?_, ?_, ?_⟩
  · intro hw hc
    rw [render_pi_color_none, if_neg hc, if_neg hw]
  · intro hw hc
    rw [render_pi_color_none, if_neg hc, if_pos hw]
  · intro hc
    rw [render_pi_color_none, if_pos hc]

/-- Witness for C2 at the spec's own example: `temp=40, load=0.5, disk=10`
under the default thresholds gives green channel `int(255*40/80) = 127`. -/
theorem render_pi_spec_witness :
    render_pi_color defaultCfg ⟨40, 1/2, 10⟩ none 0 = (0, 127, 0) := by
  have h := (render_pi_spec defaultCfg ⟨40, 1/2, 10⟩ 0).1
    (by norm_num [defaultCfg]) (by norm_num [defaultCfg])
  rw [h]
  norm_num [truncQ, min_def]

/-- C1: a non-persistent override set at time `t` with duration `d`
(`0 < t + d`: `t` is a positive wall-clock time) is stored with expiry
`t + d`; resolving it at frame time `now` yields its mode-animated colour
whenever `now ≤ t + d` and nothing once `t + d < now`, in which case the pi
renderer falls back to the metric-derived colour; a persistent override is
stored with no expiry and resolves at every `now`. -/
theorem override_lifecycle (st : Shared) (q : String) (c : Color) (mode : String)
    (d t : ℚ) (hpos : 0 < t + d) :
    ((set_override st q c mode false d t).overrides q = some ⟨c, mode, some (t + d)⟩)
    ∧ (∀ now, now ≤ t + d →
        apply_override ((set_override st q c mode false d t).overrides q) now
          = some (anim_color mode c now))
    ∧ (∀ now, t + d < now →
        apply_override ((set_override st q c mode false d t).overrides q) now = none)
    ∧ (∀ now cfg pd, t + d < now →
        render_pi_color cfg pd ((set_override st q c mode false d t).overrides q) now
          = render_pi_color cfg pd none now)
    ∧ ((set_override st q c mode true d t).overrides q = some ⟨c, mode, none⟩)
    ∧ (∀ now,
        apply_override ((set_override st q c mode true d t).overrides q) now
          = some (anim_color mode c now)) := by
  have hovF : (set_override st q c mode false d t).overrides q
      = some ⟨c, mode, some (t + d)⟩ := by
    simp [set_override]
  have hovT : (set_override st q c mode true d t).overrides q
      = some ⟨c, mode, none⟩ := by
    simp [set_override]
  have hact : ∀ now, now ≤ t + d →
      apply_override (some ⟨c, mode, some (t + d)⟩) now
        = some (anim_color mode c now) := by
    intro now h
    show (if (t + d) ≠ 0 ∧ (t + d) < now then none
          else some (anim_color mode c now)) = some (anim_color mode c now)
    rw [if_neg]
    rintro ⟨-, hlt⟩
    linarith
  have hexp : ∀ now, t + d < now →
      apply_override (some ⟨c, mode, some (t + d)⟩) now = none := by
    intro now h
    show (if (t + d) ≠ 0 ∧ (t + d) < now then none
          else some (anim_color mode c now)) = none
    rw [if_pos ⟨ne_of_gt hpos, h⟩]
  refine ⟨hovF, fun now h => by rw [hovF]; exact hact now h,
    fun now h => by rw [hovF]; exact hexp now h, ?_, hovT,
    fun now => by rw [hovT]; rfl⟩
  intro now cfg pd h
  unfold render_pi_color
  rw [hovF, hexp now h]
  rfl

/-- Witness for C1: a `"tor"` override set at `t = 100` with duration
`1/100` resolves to its colour at `now = 100` and is gone at `now = 101`,
where the pi renderer falls back; the persistent variant still resolves at
`now = 10000`. -/
theorem override_lifecycle_witness :
    apply_override ((set_override shared0 "tor" (1, 2, 3) "solid" false (1/100) 100).overrides "tor") 100
      = some (1, 2, 3)
    ∧ apply_override ((set_override shared0 "tor" (1, 2, 3) "solid" false (1/100) 100).overrides "tor") 101
      = none
    ∧ render_pi_color defaultCfg ⟨40, 1/2, 10⟩
        ((set_override shared0 "tor" (1, 2, 3) "solid" false (1/100) 100).overrides "tor") 101
      = render_pi_color defaultCfg ⟨40, 1/2, 10⟩ none 101
    ∧ apply_override ((set_override shared0 "tor" (1, 2, 3) "solid" true (1/100) 100).overrides "tor") 10000
      = some (1, 2, 3) := by
  have h := override_lifecycle shared0 "tor" (1, 2, 3) "solid" (1/100) 100 (by norm_num)
  have hanim : ∀ now : ℚ, anim_color "solid" (1, 2, 3) now = (1, 2, 3) := by
    intro now
    simp [anim_color]
  refine ⟨?_, ?_, ?_, ?_⟩
  · rw [h.2.1 100 (by norm_num), hanim]
  · exact h.2.2.1 101 (by norm_num)
  · exact h.2.2.2.1 101 defaultCfg ⟨40, 1/2, 10⟩ (by norm_num)
  · rw [h.2.2.2.2.2 10000, hanim]

lemma mem_fill_rows {hd : Bool} {ox oy L : ℤ} {c : Color} {p : Pix} :
    p ∈ fill_rows hd (ox, oy) L c ↔
      ∃ i x y, 0 ≤ i ∧ i < L ∧ ox ≤ x ∧ x < ox + 4 ∧ oy + 3 - i ≤ y ∧ y < oy + 4
        ∧ p = (x, y, c) ∧ (hd = true → x < 8 ∧ y < 8) := by
  simp only [fill_rows, List.mem_flatMap, mem_pyRange, mem_set_pixel]
  constructor
  · rintro ⟨i, ⟨hi0, hiL⟩, x, ⟨hx1, hx2⟩, y, ⟨hy1, hy2⟩, rfl, hb⟩
    exact ⟨i, x, y, hi0, hiL, hx1, hx2, hy1, hy2, rfl, hb⟩
  · rintro ⟨i, x, y, hi0, hiL, hx1, hx2, hy1, hy2, rfl, hb⟩
    exact ⟨i, ⟨hi0, hiL⟩, x, ⟨hx1, hx2⟩, y, ⟨hy1, hy2⟩, rfl, hb⟩

/-- C4 (amended): with no active traffic override and a level `0 ≤ L ≤ 4`,
the traffic renderer's sink writes are exactly the bottom `L` rows
(`8 - L ≤ y < 8`) of the quadrant's columns `4 ≤ x < 8` in the ok colour;
at `L = 0` nothing is written.  (Levels above 4 are not clamped; see the
counterexample.) -/
theorem render_traffic_spec (hd : Bool) (cfg : Cfg) (L : ℤ) (ov : Option Override)
    (now : ℚ) (h0 : 0 ≤ L) (h4 : L ≤ 4) (hov : apply_override ov now = none) :
    ∀ x y c, (x, y, c) ∈ render_traffic hd cfg L ov now ↔
      (4 ≤ x ∧ x < 8 ∧ 8 - L ≤ y ∧ y < 8 ∧ c = cfg.okColor) := by
  intro x y c
  unfold render_traffic
  rw [hov]
  rw [show (match (none : Option Color) with
      | none => fill_rows hd (4, 4) L cfg.okColor
      | some cc => fill_quad hd (4, 4) cc) = fill_rows hd (4, 4) L cfg.okColor from rfl]
  rw [mem_fill_rows]
  constructor
  · rintro ⟨i, x', y', hi0, hiL, hx1, hx2, hy1, hy2, heq, hb⟩
    simp only [Prod.mk.injEq] at heq
    obtain ⟨hx, hy, hc⟩ := heq
    exact ⟨by omega, by omega, by omega, by omega, hc⟩
  · rintro ⟨hx1, hx2, hy1, hy2, rfl⟩
    exact ⟨7 - y, x, y, by omega, by omega, by omega, by omega, by omega, by omega,
      rfl, fun _ => ⟨by omega, by omega⟩⟩

/-- Witness for C4's amended theorem at `L = 2` with no override: the write
set is exactly rows 6 and 7 of columns 4..7; concretely `(4, 6)` is written
and `(4, 5)` is not. -/
theorem render_traffic_spec_witness :
    (((4 : ℤ), (6 : ℤ), ((0 : ℤ), (255 : ℤ), (0 : ℤ)))
      ∈ render_traffic false defaultCfg 2 none 0)
    ∧ ¬(((4 : ℤ), (5 : ℤ), ((0 : ℤ), (255 : ℤ), (0 : ℤ)))
      ∈ render_traffic false defaultCfg 2 none 0) := by
  have h := render_traffic_spec false defaultCfg 2 none 0 (by norm_num) (by norm_num) rfl
  constructor
  · rw [h 4 6 (0, 255, 0)]
    norm_num [defaultCfg]
  · rw [h 4 5 (0, 255, 0)]
    norm_num

/-- Counterexample for C4 as stated: at level 5 the traffic renderer is not
clamped to the quadrant — it writes the pixel `(4, 3)`, whose row `y = 3`
lies outside the traffic quadrant's rows `4..7`. -/
theorem render_traffic_unclamped_cex :
    (((4 : ℤ), (3 : ℤ), ((0 : ℤ), (255 : ℤ), (0 : ℤ)))
      ∈ render_traffic false defaultCfg 5 none 0)
    ∧ (3 : ℤ) < 4 := by
  constructor
  · show ((4 : ℤ), (3 : ℤ), ((0 : ℤ), (255 : ℤ), (0 : ℤ)))
      ∈ fill_rows false (4, 4) 5 defaultCfg.okColor
    rw [mem_fill_rows]
    exact ⟨4, 4, 3, by norm_num, by norm_num, by norm_num, by norm_num,
      by norm_num, by norm_num, rfl, by intro h; simp at h⟩
  · norm_num

/-- C5 (amended): the guarded sub-queries — temperature, service-active,
client count, interface resolution, byte counters — default at the point of
query; a failing load-average or disk-usage query, however, is not guarded
inside `_poll`: the cycle raises, is caught by the loop's outer handler
(state unchanged, loop continues), and publishes no snapshot; when load and
disk succeed, the cycle publishes a snapshot built from the (possibly
defaulted) sub-results. -/
theorem poll_failure_spec (cfg : Cfg) (st : Shared) (inp : PollInputs) :
    (read_cpu_temp (.error ()) = 0)
    ∧ (systemd_active (.error ()) = false)
    ∧ (count_ap_clients (.error ()) = 0)
    ∧ (get_iface "auto" (.error ()) = "wlan0")
    ∧ (read_iface_bytes (.error ()) = (0, 0))
    ∧ (inp.loadRaw = .error () ∨ inp.diskRaw = .error () →
        poll cfg inp = .error () ∧ poll_step cfg st inp = st)
    ∧ (∀ load du, inp.loadRaw = .ok load → inp.diskRaw = .ok du →
        poll_step cfg st inp = { st with snap :=
          ⟨⟨read_cpu_temp inp.tempRaw, load, du.1 / du.2 * 100⟩,
            systemd_active inp.torRaw,
            ⟨inp.apServiceRaw.all systemd_active,
              if cfg.apIface ≠ "" then count_ap_clients inp.clientsRaw else 0⟩,
            read_traffic_level cfg.buckets inp.bytesRaw1 inp.bytesRaw2⟩ }) := by
  refine ⟨rfl, rfl, rfl, rfl, rfl, ?_, ?_⟩
  · intro h
    have hp : poll cfg inp = .error () := by
      rcases h with h | h
      · rcases hd3 : inp.diskRaw with e2 | du
        all_goals
          unfold poll
          rw [h, hd3]
      · rcases hl : inp.loadRaw with e1 | load
        all_goals
          unfold poll
          rw [hl, h]
    constructor
    · exact hp
    · unfold poll_step
      rw [hp]
  · intro load du hl hd2
    have hp : poll cfg inp = .ok
        ⟨⟨read_cpu_temp inp.tempRaw, load, du.1 / du.2 * 100⟩,
          systemd_active inp.torRaw,
          ⟨inp.apServiceRaw.all systemd_active,
            if cfg.apIface ≠ "" then count_ap_clients inp.clientsRaw else 0⟩,
          read_traffic_level cfg.buckets inp.bytesRaw1 inp.bytesRaw2⟩ := by
      unfold poll
      rw [hl, hd2]
    unfold poll_step
    rw [hp]

/-- Witness for C5's amended theorem: a cycle where only the guarded queries
fail still publishes a snapshot with the defaulted values (temperature 0,
tor inactive, 0 clients, traffic level 1). -/
theorem poll_failure_spec_witness :
    poll_step defaultCfg shared0 pollInpOk
      = { shared0 with snap := ⟨⟨0, 1, 50⟩, false, ⟨true, 0⟩, 1⟩ } := by
  have h := (poll_failure_spec defaultCfg shared0 pollInpOk).2.2.2.2.2.2
    1 (50, 100) rfl rfl
  rw [h]
  congr 1
  norm_num [pollInpOk, read_cpu_temp, systemd_active, count_ap_clients,
    read_traffic_level, read_iface_bytes, bucket_level, defaultCfg]

/-- Counterexample for C5 as stated: when the load-average query raises, the
cycle publishes nothing at all — the shared state keeps its previous
snapshot (here with `load = 2`, not a default) instead of a snapshot with
defaults for the failed field. -/
theorem poll_load_failure_cex :
    poll defaultCfg pollInpBad = .error ()
    ∧ poll_step defaultCfg shared0 pollInpBad = shared0
    ∧ shared0.snap.pi.load = 2 :=
  ⟨rfl, rfl, rfl⟩
